import Mathlib

/-!
Verification of hogg2k.py (David Hogg's cosmological distance measures).

Shallow embedding of `src/hogg2k.py` (ver 0.4): a `Cosmos` record holding the
three cosmological parameters, the dimensionless expansion rate `E`, and the
distance/time/volume quantities as real-valued functions of redshift.

Numerical quadrature (`scipy.integrate.quad`) is modelled by the exact real
integral it approximates: a finite-interval call becomes an interval integral
and a call with upper limit `integrate.Inf` becomes an integral over `Set.Ioi`.
Real arithmetic on Python floats is modelled by arithmetic on `ℝ`.

Two behaviours of the source are not plain real arithmetic and get explicit
error models:
* Python float division (`a / b` on floats) raises `ZeroDivisionError` when
  `b == 0.0`; `pydiv` returns `none` in that case.  The accessors `D_H` and
  `t_H` divide by `H0`, so `D_Hopt`/`t_Hopt` carry this fallibility.
* The module imports `arcsin, inf, log10, pi, sin, sinh, sqrt` from numpy but
  never imports or defines `arcsinh`; the `ok > 0` branch of `V_C` therefore
  raises `NameError` whenever it is reached.  `V_C` returns `none` on that
  branch.
-/

open MeasureTheory Set Real

noncomputable section

/-- Speed of light in km/s: `c = scipy.constants.c / 1e3`
(module line 40 rebinds the imported SI-unit constant). -/
def c : ℝ := 299792458.0 / 1e3

/-- Expansion rate (line 43): `E(z, om, ol) = sqrt(om (1+z)^3 + (1-om-ol) (1+z)^2 + ol)`. -/
def E (z om ol : ℝ) : ℝ :=
  Real.sqrt (om * (1 + z) ^ 3 + (1 - om - ol) * (1 + z) ^ 2 + ol)

/-- The `Cosmos` class: an immutable bundle of the three parameters set in
`__init__` (`self.om`, `self.ol`, `self.h`). -/
structure Cosmos where
  om : ℝ
  ol : ℝ
  h : ℝ

/-- The constructor defaults `Cosmos()`: `(0.3, 0.7, 0.7)`. -/
def defaultCosmos : Cosmos := Cosmos.mk 0.3 0.7 0.7

namespace Cosmos

/-- Hubble constant in km/s/Mpc: `H0 = 100. * self.h`. -/
def H0 (cm : Cosmos) : ℝ := 100 * cm.h

/-- Hubble distance in Mpc (real-arithmetic value): `D_H = c / self.H0`. -/
def D_H (cm : Cosmos) : ℝ := c / cm.H0

/-- Python float division: raises `ZeroDivisionError` (modelled as `none`)
when the divisor is exactly zero, otherwise real division. -/
def pydiv (a b : ℝ) : Option ℝ := if b = 0 then none else some (a / b)

/-- Variant of `D_H` with Python division semantics: `c / self.H0` raises when `H0 = 0`. -/
def D_Hopt (cm : Cosmos) : Option ℝ := pydiv c cm.H0

/-- Hubble time `t_H` in Gyr; `1./H0`, then `*= 1e-3 * 1e6 * 3.0856776e16`
(to seconds), then `*= (1./(365.25*24*3600)) * 1e-9` (to Gyr).
Real-arithmetic value. -/
def t_H (cm : Cosmos) : ℝ :=
  1 / cm.H0 * (1e-3 * 1e6 * 3.0856776e16) * (1 / (365.25 * 24 * 3600) * 1e-9)

/-- Variant of `t_H` with Python division semantics: `1. / self.H0` raises when `H0 = 0`;
the two subsequent rescalings multiply by nonzero constants. -/
def t_Hopt (cm : Cosmos) : Option ℝ :=
  (pydiv 1 cm.H0).map
    (fun x => x * (1e-3 * 1e6 * 3.0856776e16) * (1 / (365.25 * 24 * 3600) * 1e-9))

/-- Line-of-sight comoving distance `D_C(z)`:
`self.D_H * quad(integrand, 0., z)` with the integrand written inline in the
source as `1./sqrt(om (1+z)^3 + (1-om-ol) (1+z)^2 + ol)`. -/
def D_C (cm : Cosmos) (z : ℝ) : ℝ :=
  cm.D_H * ∫ x in (0 : ℝ)..z,
    1 / Real.sqrt (cm.om * (1 + x) ^ 3 + (1 - cm.om - cm.ol) * (1 + x) ^ 2 + cm.ol)

/-- Transverse comoving distance `D_M(z)`, with the three-way split on
`ok = 1 - om - ol` (`if ok > 0` / `elif ok == 0` / `else`). -/
def D_M (cm : Cosmos) (z : ℝ) : ℝ :=
  let ok := 1 - cm.om - cm.ol
  if 0 < ok then cm.D_H / Real.sqrt ok * Real.sinh (Real.sqrt ok * cm.D_C z / cm.D_H)
  else if ok = 0 then cm.D_C z
  else cm.D_H / Real.sqrt |ok| * Real.sin (Real.sqrt |ok| * cm.D_C z / cm.D_H)

/-- Angular diameter distance: `D_A(z) = self.D_M(z) / (1. + z)`. -/
def D_A (cm : Cosmos) (z : ℝ) : ℝ := cm.D_M z / (1 + z)

/-- Luminosity distance: `D_L(z) = (1. + z) * self.D_M(z)`. -/
def D_L (cm : Cosmos) (z : ℝ) : ℝ := (1 + z) * cm.D_M z

/-- Distance modulus: `DM(z) = 5. * log10(self.D_L(z) * 1e6 / 10.)`. -/
def DM (cm : Cosmos) (z : ℝ) : ℝ := 5 * Real.logb 10 (cm.D_L z * 1e6 / 10)

/-- Comoving volume element `dV_C(z) = D_H * (1+z)^2 * D_A(z)^2 / E(z, om, ol)`,
per unit solid angle per unit redshift. -/
def dV_C (cm : Cosmos) (z : ℝ) : ℝ :=
  cm.D_H * (1 + z) ^ 2 * cm.D_A z ^ 2 / E z cm.om cm.ol

/-- Total comoving volume `V_C(z)`.  `if ok == 0:` the flat formula; else with
`mh = D_M/D_H`, `if ok > 0:` the source calls the undefined name `arcsinh`
(not in the numpy import list), raising `NameError`, modelled as `none`;
`else:` the closed-universe arcsin formula, dividing by the signed `ok` in
front and using `abs(ok)` inside. -/
def V_C (cm : Cosmos) (z : ℝ) : Option ℝ :=
  let ok := 1 - cm.om - cm.ol
  if ok = 0 then some (4 * π * cm.D_M z ^ 3 / 3)
  else
    let mh := cm.D_M z / cm.D_H
    if 0 < ok then none
    else some (2 * π * cm.D_H ^ 3 / ok *
      (mh * Real.sqrt (1 + ok * mh ^ 2) -
        Real.arcsin (mh * Real.sqrt |ok|) / Real.sqrt |ok|))

/-- Lookback time `t_L(z)`:
`self.t_H * quad(integrand, 0., z)` with integrand
`1./(1.+z)/sqrt(om (1+z)^3 + (1-om-ol) (1+z)^2 + ol)`. -/
def t_L (cm : Cosmos) (z : ℝ) : ℝ :=
  cm.t_H * ∫ x in (0 : ℝ)..z,
    1 / (1 + x) /
      Real.sqrt (cm.om * (1 + x) ^ 3 + (1 - cm.om - cm.ol) * (1 + x) ^ 2 + cm.ol)

/-- Age of the universe `t(z)`: the same integrand as `t_L` but over
`(z, +integrate.Inf)`, modelled as the integral over `Set.Ioi z`. -/
def t (cm : Cosmos) (z : ℝ) : ℝ :=
  cm.t_H * ∫ x in Ioi z,
    1 / (1 + x) /
      Real.sqrt (cm.om * (1 + x) ^ 3 + (1 - cm.om - cm.ol) * (1 + x) ^ 2 + cm.ol)

/-- Intersection probability density:
`dP(z) = self.D_H * (1. + z)**2 / E(z, om, ol)`. -/
def dP (cm : Cosmos) (z : ℝ) : ℝ := cm.D_H * (1 + z) ^ 2 / E z cm.om cm.ol

/-!
Variants of the dependent quantities with Python division semantics: each
threads the possible `ZeroDivisionError` of the `D_H` / `t_H` accessors
through the data flow of the corresponding method body (`D_C` reads
`self.D_H`, `D_M` calls `self.D_C` and reads `self.D_H`, `t_L` and `t` read
`self.t_H`, `dV_C` and `dP` read `self.D_H`, and `D_A`, `D_L`, `DM`, `V_C`
build on `D_M`), so an error raised by the accessor aborts the whole call.
The remaining divisions in these bodies keep real-division semantics: on the
claims' domain their divisors are nonzero (a returned `D_H` is never zero,
`1 + z ≥ 1`, and the square roots in the branch taken are positive). -/

/-- Variant of `D_C` with Python division semantics: the method multiplies the
quadrature result by `self.D_H`, so it raises whenever `D_H` does. -/
def D_Copt (cm : Cosmos) (z : ℝ) : Option ℝ :=
  cm.D_Hopt.map (fun dh => dh * ∫ x in (0 : ℝ)..z,
    1 / Real.sqrt (cm.om * (1 + x) ^ 3 + (1 - cm.om - cm.ol) * (1 + x) ^ 2 + cm.ol))

/-- Variant of `D_M` with Python division semantics: the body evaluates
`self.D_C(z)` and `self.D_H` before branching on `ok`. -/
def D_Mopt (cm : Cosmos) (z : ℝ) : Option ℝ :=
  (cm.D_Copt z).bind (fun dc => cm.D_Hopt.map (fun dh =>
    let ok := 1 - cm.om - cm.ol
    if 0 < ok then dh / Real.sqrt ok * Real.sinh (Real.sqrt ok * dc / dh)
    else if ok = 0 then dc
    else dh / Real.sqrt |ok| * Real.sin (Real.sqrt |ok| * dc / dh)))

/-- Variant of `D_A` with Python division semantics. -/
def D_Aopt (cm : Cosmos) (z : ℝ) : Option ℝ :=
  (cm.D_Mopt z).map (fun dm => dm / (1 + z))

/-- Variant of `D_L` with Python division semantics. -/
def D_Lopt (cm : Cosmos) (z : ℝ) : Option ℝ :=
  (cm.D_Mopt z).map (fun dm => (1 + z) * dm)

/-- Variant of `DM` with Python division semantics. -/
def DMopt (cm : Cosmos) (z : ℝ) : Option ℝ :=
  (cm.D_Lopt z).map (fun dl => 5 * Real.logb 10 (dl * 1e6 / 10))

/-- Variant of `dV_C` with Python division semantics: the body reads
`self.D_H` and evaluates `self.D_A(z)`. -/
def dV_Copt (cm : Cosmos) (z : ℝ) : Option ℝ :=
  cm.D_Hopt.bind (fun dh => (cm.D_Aopt z).map (fun da =>
    dh * (1 + z) ^ 2 * da ^ 2 / E z cm.om cm.ol))

/-- Variant of `V_C` with Python division semantics: the body evaluates
`self.D_M(z)` first, takes the flat branch on `ok == 0`, and otherwise reads
`self.D_H`; the `ok > 0` branch still raises `NameError` on `arcsinh`. -/
def V_Copt (cm : Cosmos) (z : ℝ) : Option ℝ :=
  (cm.D_Mopt z).bind (fun dm =>
    let ok := 1 - cm.om - cm.ol
    if ok = 0 then some (4 * π * dm ^ 3 / 3)
    else cm.D_Hopt.bind (fun dh =>
      let mh := dm / dh
      if 0 < ok then none
      else some (2 * π * dh ^ 3 / ok *
        (mh * Real.sqrt (1 + ok * mh ^ 2) -
          Real.arcsin (mh * Real.sqrt |ok|) / Real.sqrt |ok|))))

/-- Variant of `t_L` with Python division semantics: the method multiplies the
quadrature result by `self.t_H`, so it raises whenever `t_H` does. -/
def t_Lopt (cm : Cosmos) (z : ℝ) : Option ℝ :=
  cm.t_Hopt.map (fun th => th * ∫ x in (0 : ℝ)..z,
    1 / (1 + x) /
      Real.sqrt (cm.om * (1 + x) ^ 3 + (1 - cm.om - cm.ol) * (1 + x) ^ 2 + cm.ol))

/-- Variant of `t` with Python division semantics. -/
def topt (cm : Cosmos) (z : ℝ) : Option ℝ :=
  cm.t_Hopt.map (fun th => th * ∫ x in Ioi z,
    1 / (1 + x) /
      Real.sqrt (cm.om * (1 + x) ^ 3 + (1 - cm.om - cm.ol) * (1 + x) ^ 2 + cm.ol))

/-- Variant of `dP` with Python division semantics. -/
def dPopt (cm : Cosmos) (z : ℝ) : Option ℝ :=
  cm.D_Hopt.map (fun dh => dh * (1 + z) ^ 2 / E z cm.om cm.ol)

end Cosmos

/-- One tag per query operation exposed by the class. -/
inductive Query where
  | qD_C | qD_M | qD_A | qD_L | qDM | qdV_C | qV_C | qt_L | qt | qdP
  | qH0 | qD_H | qt_H

/-- Method-call semantics as explicit state passing: each method body of the
source reads `self.om`, `self.ol`, `self.h` but contains no assignment to any
attribute of `self`, so the post-state is the received record unchanged and
the result depends only on the record and `z`.  `V_C` is `Option`-valued
(its `ok > 0` branch raises); all other results are wrapped in `some`. -/
def runQuery (cm : Cosmos) (z : ℝ) : Query → Option ℝ × Cosmos
  | Query.qD_C => (some (cm.D_C z), cm)
  | Query.qD_M => (some (cm.D_M z), cm)
  | Query.qD_A => (some (cm.D_A z), cm)
  | Query.qD_L => (some (cm.D_L z), cm)
  | Query.qDM => (some (cm.DM z), cm)
  | Query.qdV_C => (some (cm.dV_C z), cm)
  | Query.qV_C => (cm.V_C z, cm)
  | Query.qt_L => (some (cm.t_L z), cm)
  | Query.qt => (some (cm.t z), cm)
  | Query.qdP => (some (cm.dP z), cm)
  | Query.qH0 => (some cm.H0, cm)
  | Query.qD_H => (some cm.D_H, cm)
  | Query.qt_H => (some cm.t_H, cm)

/-! ## Helper lemmas -/

/-- When the curvature term vanishes, `D_M` takes the flat branch. -/
lemma D_M_of_curvature_zero (cm : Cosmos) (z : ℝ) (hk : 1 - cm.om - cm.ol = 0) :
    cm.D_M z = cm.D_C z := by
  simp [Cosmos.D_M, hk]

/-- The radicand of the time integrand is positive for `x > -1` when
`Ωm > 0`, `ΩΛ ≥ 0` and `Ωk ≥ 0`. -/
lemma age_rad_pos (om ol : ℝ) (hom : 0 < om) (hol : 0 ≤ ol)
    (hok : 0 ≤ 1 - om - ol) (x : ℝ) (hx : -1 < x) :
    0 < om * (1 + x) ^ 3 + (1 - om - ol) * (1 + x) ^ 2 + ol := by
  have h1x : (0 : ℝ) < 1 + x := by linarith
  have h3 : 0 < om * (1 + x) ^ 3 := mul_pos hom (pow_pos h1x 3)
  have h2 : 0 ≤ (1 - om - ol) * (1 + x) ^ 2 := mul_nonneg hok (sq_nonneg _)
  linarith

/-- The time integrand `1/(1+x)/√(radicand)` is positive for `x ≥ 0`. -/
lemma age_integrand_pos (om ol : ℝ) (hom : 0 < om) (hol : 0 ≤ ol)
    (hok : 0 ≤ 1 - om - ol) (x : ℝ) (hx : 0 ≤ x) :
    0 < 1 / (1 + x) /
      Real.sqrt (om * (1 + x) ^ 3 + (1 - om - ol) * (1 + x) ^ 2 + ol) :=
  div_pos (div_pos one_pos (by linarith))
    (Real.sqrt_pos.mpr (age_rad_pos om ol hom hol hok x (by linarith)))

/-- The time integrand is continuous on `[0, ∞)`. -/
lemma age_contOn (om ol : ℝ) (hom : 0 < om) (hol : 0 ≤ ol)
    (hok : 0 ≤ 1 - om - ol) :
    ContinuousOn (fun x : ℝ => 1 / (1 + x) /
      Real.sqrt (om * (1 + x) ^ 3 + (1 - om - ol) * (1 + x) ^ 2 + ol))
      (Ici 0) := by
  apply ContinuousOn.div
  · exact continuousOn_const.div
      ((continuous_const.add continuous_id).continuousOn)
      (fun x hx => (by simp only [mem_Ici] at hx; positivity : (0 : ℝ) < 1 + x).ne')
  · exact (Real.continuous_sqrt.comp (by fun_prop)).continuousOn
  · intro x hx
    simp only [mem_Ici] at hx
    exact (Real.sqrt_pos.mpr
      (age_rad_pos om ol hom hol hok x (by linarith))).ne'

/-- The time integrand is integrable on `(0, ∞)`: it is dominated by
`(√Ωm)⁻¹ · (1 + x²)⁻¹`. -/
lemma age_integrableOn (om ol : ℝ) (hom : 0 < om) (hol : 0 ≤ ol)
    (hok : 0 ≤ 1 - om - ol) :
    IntegrableOn (fun x : ℝ => 1 / (1 + x) /
      Real.sqrt (om * (1 + x) ^ 3 + (1 - om - ol) * (1 + x) ^ 2 + ol))
      (Ioi 0) := by
  have hbound : Integrable (fun x : ℝ => (Real.sqrt om)⁻¹ * (1 + x ^ 2)⁻¹) :=
    integrable_inv_one_add_sq.const_mul _
  have hsom : 0 < Real.sqrt om := Real.sqrt_pos.mpr hom
  refine Integrable.mono' hbound.integrableOn
    (((age_contOn om ol hom hol hok).mono Ioi_subset_Ici_self).aestronglyMeasurable
      measurableSet_Ioi) ?_
  rw [ae_restrict_iff' measurableSet_Ioi]
  filter_upwards with x hx
  have hx0 : 0 < x := mem_Ioi.mp hx
  have h1x : (0 : ℝ) < 1 + x := by linarith
  have hrad : 0 < om * (1 + x) ^ 3 + (1 - om - ol) * (1 + x) ^ 2 + ol :=
    age_rad_pos om ol hom hol hok x (by linarith)
  rw [Real.norm_eq_abs,
    abs_of_pos (age_integrand_pos om ol hom hol hok x hx0.le), div_div]
  have hsq : Real.sqrt (om * (1 + x) ^ 2) = Real.sqrt om * (1 + x) := by
    rw [Real.sqrt_mul hom.le, Real.sqrt_sq h1x.le]
  have hs1 : Real.sqrt om * (1 + x) ≤
      Real.sqrt (om * (1 + x) ^ 3 + (1 - om - ol) * (1 + x) ^ 2 + ol) := by
    rw [← hsq]
    apply Real.sqrt_le_sqrt
    have h2 : 0 ≤ (1 - om - ol) * (1 + x) ^ 2 := mul_nonneg hok (sq_nonneg _)
    nlinarith [pow_pos h1x 2]
  have hmain : Real.sqrt om * (1 + x ^ 2) ≤
      (1 + x) * Real.sqrt (om * (1 + x) ^ 3 + (1 - om - ol) * (1 + x) ^ 2 + ol) := by
    calc Real.sqrt om * (1 + x ^ 2) ≤ Real.sqrt om * (1 + x) ^ 2 := by nlinarith
      _ = (1 + x) * (Real.sqrt om * (1 + x)) := by ring
      _ ≤ (1 + x) * Real.sqrt (om * (1 + x) ^ 3 + (1 - om - ol) * (1 + x) ^ 2 + ol) :=
          mul_le_mul_of_nonneg_left hs1 h1x.le
  have hpos2 : 0 < Real.sqrt om * (1 + x ^ 2) :=
    mul_pos hsom (by positivity)
  calc 1 / ((1 + x) *
        Real.sqrt (om * (1 + x) ^ 3 + (1 - om - ol) * (1 + x) ^ 2 + ol))
      ≤ 1 / (Real.sqrt om * (1 + x ^ 2)) :=
        one_div_le_one_div_of_le hpos2 hmain
    _ = (Real.sqrt om)⁻¹ * (1 + x ^ 2)⁻¹ := by rw [one_div, mul_inv]

/-- Splitting the improper time integral at an intermediate point:
for `0 ≤ a ≤ b`, the integral over `(a, ∞)` is the interval integral over
`a..b` plus the integral over `(b, ∞)`. -/
lemma age_split (om ol : ℝ) (hom : 0 < om) (hol : 0 ≤ ol)
    (hok : 0 ≤ 1 - om - ol) (a b : ℝ) (ha : 0 ≤ a) (hab : a ≤ b) :
    (∫ x in Ioi a, 1 / (1 + x) /
        Real.sqrt (om * (1 + x) ^ 3 + (1 - om - ol) * (1 + x) ^ 2 + ol)) =
      (∫ x in a..b, 1 / (1 + x) /
        Real.sqrt (om * (1 + x) ^ 3 + (1 - om - ol) * (1 + x) ^ 2 + ol)) +
      ∫ x in Ioi b, 1 / (1 + x) /
        Real.sqrt (om * (1 + x) ^ 3 + (1 - om - ol) * (1 + x) ^ 2 + ol) := by
  have hint : IntegrableOn (fun x : ℝ => 1 / (1 + x) /
      Real.sqrt (om * (1 + x) ^ 3 + (1 - om - ol) * (1 + x) ^ 2 + ol))
      (Ioi a) :=
    (age_integrableOn om ol hom hol hok).mono_set (Ioi_subset_Ioi ha)
  rw [intervalIntegral.integral_of_le hab,
    ← setIntegral_union (Ioc_disjoint_Ioi le_rfl) measurableSet_Ioi
      (hint.mono_set Ioc_subset_Ioi_self) (hint.mono_set (Ioi_subset_Ioi hab)),
    Ioc_union_Ioi_eq_Ioi hab]

/-- The interval integral of the time integrand over `a..b` is strictly
positive for `0 ≤ a < b`. -/
lemma age_interval_pos (om ol : ℝ) (hom : 0 < om) (hol : 0 ≤ ol)
    (hok : 0 ≤ 1 - om - ol) (a b : ℝ) (ha : 0 ≤ a) (hab : a < b) :
    0 < ∫ x in a..b, 1 / (1 + x) /
      Real.sqrt (om * (1 + x) ^ 3 + (1 - om - ol) * (1 + x) ^ 2 + ol) := by
  apply intervalIntegral.intervalIntegral_pos_of_pos_on
  · apply ContinuousOn.intervalIntegrable
    apply (age_contOn om ol hom hol hok).mono
    rw [uIcc_of_le hab.le]
    exact fun x hx => le_trans ha hx.1
  · exact fun x hx => age_integrand_pos om ol hom hol hok x (le_of_lt (lt_of_le_of_lt ha hx.1))
  · exact hab

/-- The distance integrand `1/√(radicand)` is positive for `x ≥ 0`. -/
lemma dist_integrand_pos (om ol : ℝ) (hom : 0 < om) (hol : 0 ≤ ol)
    (hok : 0 ≤ 1 - om - ol) (x : ℝ) (hx : 0 ≤ x) :
    0 < 1 / Real.sqrt (om * (1 + x) ^ 3 + (1 - om - ol) * (1 + x) ^ 2 + ol) :=
  one_div_pos.mpr
    (Real.sqrt_pos.mpr (age_rad_pos om ol hom hol hok x (by linarith)))

/-- The distance integrand is continuous on `[0, ∞)`. -/
lemma dist_contOn (om ol : ℝ) (hom : 0 < om) (hol : 0 ≤ ol)
    (hok : 0 ≤ 1 - om - ol) :
    ContinuousOn (fun x : ℝ =>
      1 / Real.sqrt (om * (1 + x) ^ 3 + (1 - om - ol) * (1 + x) ^ 2 + ol))
      (Ici 0) := by
  apply ContinuousOn.div continuousOn_const
    (Real.continuous_sqrt.comp (by fun_prop)).continuousOn
  intro x hx
  simp only [mem_Ici] at hx
  exact (Real.sqrt_pos.mpr (age_rad_pos om ol hom hol hok x (by linarith))).ne'

/-- The interval integral of the distance integrand over `0..b` is strictly
positive for `b > 0`. -/
lemma dist_interval_pos (om ol : ℝ) (hom : 0 < om) (hol : 0 ≤ ol)
    (hok : 0 ≤ 1 - om - ol) (b : ℝ) (hb : 0 < b) :
    0 < ∫ x in (0 : ℝ)..b,
      1 / Real.sqrt (om * (1 + x) ^ 3 + (1 - om - ol) * (1 + x) ^ 2 + ol) := by
  apply intervalIntegral.intervalIntegral_pos_of_pos_on
  · apply ContinuousOn.intervalIntegrable
    apply (dist_contOn om ol hom hol hok).mono
    rw [uIcc_of_le hb.le]
    exact fun x hx => hx.1
  · exact fun x hx => dist_integrand_pos om ol hom hol hok x hx.1.le
  · exact hb

/-- Hubble distance `D_H` is positive when `h100 > 0`. -/
lemma D_H_pos (cm : Cosmos) (hh : 0 < cm.h) : 0 < cm.D_H := by
  unfold Cosmos.D_H Cosmos.H0 c
  exact div_pos (by norm_num) (by linarith)

/-- Comoving distance `D_C z` is positive for `z > 0` on a valid cosmology. -/
lemma D_C_pos (cm : Cosmos) (hom : 0 < cm.om) (hol : 0 ≤ cm.ol)
    (hok : 0 ≤ 1 - cm.om - cm.ol) (hh : 0 < cm.h) (z : ℝ) (hz : 0 < z) :
    0 < cm.D_C z := by
  unfold Cosmos.D_C
  exact mul_pos (D_H_pos cm hh)
    (dist_interval_pos cm.om cm.ol hom hol hok z hz)

/-- At the default cosmology, `D_L 1` is positive. -/
lemma D_L_default_pos : 0 < defaultCosmos.D_L 1 := by
  unfold Cosmos.D_L
  rw [D_M_of_curvature_zero defaultCosmos 1 (by norm_num [defaultCosmos])]
  exact mul_pos (by norm_num)
    (D_C_pos defaultCosmos (by norm_num [defaultCosmos])
      (by norm_num [defaultCosmos]) (by norm_num [defaultCosmos])
      (by norm_num [defaultCosmos]) 1 one_pos)

/-- Hubble time `t_H` is positive when `h100 > 0`. -/
lemma t_H_pos (cm : Cosmos) (hh : 0 < cm.h) : 0 < cm.t_H := by
  unfold Cosmos.t_H Cosmos.H0
  have h100 : (0 : ℝ) < 100 * cm.h := by linarith
  exact mul_pos (mul_pos (div_pos one_pos h100) (by norm_num)) (by norm_num)

/-! ## Claim theorems -/

/-- C3: for every cosmology with `Ωm + ΩΛ = 1` exactly (`Ωk = 0`) and every
`z ≥ 0`, `D_M z = D_C z`; the flat branch is selected by exact equality of the
curvature term with zero. -/
theorem flat_D_M_eq_D_C (cm : Cosmos) (z : ℝ) (hflat : cm.om + cm.ol = 1)
    (hz : 0 ≤ z) : cm.D_M z = cm.D_C z :=
  D_M_of_curvature_zero cm z (by linarith)

/-- Witness for C3 at the default cosmology `(0.3, 0.7, 0.7)` and `z = 2`. -/
theorem flat_D_M_eq_D_C_witness :
    defaultCosmos.om + defaultCosmos.ol = 1 ∧ (0 : ℝ) ≤ 2 ∧
      defaultCosmos.D_M 2 = defaultCosmos.D_C 2 :=
  ⟨by norm_num [defaultCosmos], by norm_num,
    flat_D_M_eq_D_C defaultCosmos 2 (by norm_num [defaultCosmos]) (by norm_num)⟩

/-- C4: for every cosmology and every `z ≥ 0`,
`D_L z = (1 + z)^2 * D_A z`, independently of the curvature branch of `D_M`. -/
theorem D_L_eq_sq_mul_D_A (cm : Cosmos) (z : ℝ) (hz : 0 ≤ z) :
    cm.D_L z = (1 + z) ^ 2 * cm.D_A z := by
  have h1 : (1 : ℝ) + z ≠ 0 := by linarith
  unfold Cosmos.D_L Cosmos.D_A
  field_simp
  ring

/-- Witness for C4 at the default cosmology and `z = 1`. -/
theorem D_L_eq_sq_mul_D_A_witness :
    (0 : ℝ) ≤ 1 ∧ defaultCosmos.D_L 1 = (1 + 1) ^ 2 * defaultCosmos.D_A 1 :=
  ⟨by norm_num, D_L_eq_sq_mul_D_A defaultCosmos 1 (by norm_num)⟩

/-- C5: for every cosmology, `D_C z = D_H * ∫ 0..z, 1 / E`, and
`D_C 0 = 0` (the integral over the degenerate interval vanishes). -/
theorem D_C_integral_spec (cm : Cosmos) (z : ℝ) :
    cm.D_C z = cm.D_H * ∫ x in (0 : ℝ)..z, 1 / E x cm.om cm.ol ∧
      cm.D_C 0 = 0 := by
  constructor
  · rfl
  · unfold Cosmos.D_C
    rw [intervalIntegral.integral_same, mul_zero]

/-- C7: for every cosmology and `z` with `D_L z > 0`, the distance modulus is
`5 * log10(D_L z * 1e6 / 10)` (luminosity distance in Mpc converted to parsecs
and normalized by the 10 pc reference). -/
theorem DM_formula (cm : Cosmos) (z : ℝ) (hpos : 0 < cm.D_L z) :
    cm.DM z = 5 * Real.logb 10 (cm.D_L z * 1e6 / 10) := rfl

/-- Witness for C7 at the default cosmology and `z = 1`, where the luminosity
distance is strictly positive. -/
theorem DM_formula_witness :
    0 < defaultCosmos.D_L 1 ∧
      defaultCosmos.DM 1 = 5 * Real.logb 10 (defaultCosmos.D_L 1 * 1e6 / 10) :=
  ⟨D_L_default_pos, DM_formula defaultCosmos 1 D_L_default_pos⟩

/-- C9: every query operation returns the parameter record unchanged, and a
second call on the returned record gives the same result: query operations are
pure functions of the stored parameters and `z`. -/
theorem queries_pure (cm : Cosmos) (z : ℝ) (q : Query) :
    (runQuery cm z q).2 = cm ∧
      (runQuery ((runQuery cm z q).2) z q).1 = (runQuery cm z q).1 := by
  cases q <;> exact ⟨rfl, rfl⟩

/-- C10: for every cosmology and `z ≥ 0`, `dV_C z = dP z * D_A z ^ 2` (both
share the factor `D_H (1+z)^2 / E`), and `dP 0 = D_H` since `E 0 = 1` for all
parameter values. -/
theorem dV_C_eq_dP_mul_D_A_sq (cm : Cosmos) (z : ℝ) (hz : 0 ≤ z) :
    cm.dV_C z = cm.dP z * cm.D_A z ^ 2 ∧ cm.dP 0 = cm.D_H := by
  constructor
  · unfold Cosmos.dV_C Cosmos.dP
    ring
  · unfold Cosmos.dP E
    rw [show cm.om * (1 + 0 : ℝ) ^ 3 + (1 - cm.om - cm.ol) * (1 + 0 : ℝ) ^ 2 + cm.ol
          = 1 from by ring, Real.sqrt_one]
    norm_num

/-- Witness for C10 at the default cosmology and `z = 1`. -/
theorem dV_C_eq_dP_mul_D_A_sq_witness :
    (0 : ℝ) ≤ 1 ∧
      (defaultCosmos.dV_C 1 = defaultCosmos.dP 1 * defaultCosmos.D_A 1 ^ 2 ∧
        defaultCosmos.dP 0 = defaultCosmos.D_H) :=
  ⟨by norm_num, dV_C_eq_dP_mul_D_A_sq defaultCosmos 1 (by norm_num)⟩

/-- C1 (code behaviour at a failing input): for the open cosmology
`(0.2, 0.7, 0.7)` (curvature term `0.1 > 0`) at `z = 1`, `V_C` does not
evaluate: the `ok > 0` branch uses the undefined name `arcsinh`. -/
theorem V_C_open_branch_fails : (Cosmos.mk 0.2 0.7 0.7).V_C 1 = none := by
  unfold Cosmos.V_C
  norm_num

/-- C2 (counterexample): for a cosmology with `h100 = 0`, evaluating `D_H` and
`t_H` raises (`ZeroDivisionError` on `c / H0` and `1 / H0`); neither returns a
value, contradicting the claim that each returns infinity without raising. -/
theorem hubble_zero_raises_cex :
    (Cosmos.mk 0.3 0.7 0).D_Hopt = none ∧ (Cosmos.mk 0.3 0.7 0).t_Hopt = none := by
  constructor <;>
    simp [Cosmos.D_Hopt, Cosmos.t_Hopt, Cosmos.pydiv, Cosmos.H0]

/-- C2 (amended): for every cosmology with `h100 = 0` and every `z`,
evaluating `D_H` and `t_H` raises a division-by-zero error rather than
returning infinity, and every dependent quantity (`D_C`, `D_M`, `D_A`, `D_L`,
`DM`, `dV_C`, `V_C`, `t_L`, `t`, `dP`) likewise fails with the propagated
error instead of receiving a propagated infinity. -/
theorem hubble_zero_raises (cm : Cosmos) (hh : cm.h = 0) (z : ℝ) :
    cm.D_Hopt = none ∧ cm.t_Hopt = none ∧
      cm.D_Copt z = none ∧ cm.D_Mopt z = none ∧ cm.D_Aopt z = none ∧
      cm.D_Lopt z = none ∧ cm.DMopt z = none ∧ cm.dV_Copt z = none ∧
      cm.V_Copt z = none ∧ cm.t_Lopt z = none ∧ cm.topt z = none ∧
      cm.dPopt z = none := by
  have hD : cm.D_Hopt = none := by
    simp [Cosmos.D_Hopt, Cosmos.pydiv, Cosmos.H0, hh]
  have ht : cm.t_Hopt = none := by
    simp [Cosmos.t_Hopt, Cosmos.pydiv, Cosmos.H0, hh]
  have hC : cm.D_Copt z = none := by simp [Cosmos.D_Copt, hD]
  have hM : cm.D_Mopt z = none := by simp [Cosmos.D_Mopt, hC]
  have hL : cm.D_Lopt z = none := by simp [Cosmos.D_Lopt, hM]
  exact ⟨hD, ht, hC, hM, by simp [Cosmos.D_Aopt, hM], hL,
    by simp [Cosmos.DMopt, hL], by simp [Cosmos.dV_Copt, hD],
    by simp [Cosmos.V_Copt, hM], by simp [Cosmos.t_Lopt, ht],
    by simp [Cosmos.topt, ht], by simp [Cosmos.dPopt, hD]⟩

/-- Witness for the amended C2 at the cosmology `(0.5, 0.5, 0)` and `z = 1`. -/
theorem hubble_zero_raises_witness :
    (Cosmos.mk 0.5 0.5 0).h = 0 ∧
      ((Cosmos.mk 0.5 0.5 0).D_Hopt = none ∧ (Cosmos.mk 0.5 0.5 0).t_Hopt = none ∧
        (Cosmos.mk 0.5 0.5 0).D_Copt 1 = none ∧ (Cosmos.mk 0.5 0.5 0).D_Mopt 1 = none ∧
        (Cosmos.mk 0.5 0.5 0).D_Aopt 1 = none ∧ (Cosmos.mk 0.5 0.5 0).D_Lopt 1 = none ∧
        (Cosmos.mk 0.5 0.5 0).DMopt 1 = none ∧ (Cosmos.mk 0.5 0.5 0).dV_Copt 1 = none ∧
        (Cosmos.mk 0.5 0.5 0).V_Copt 1 = none ∧ (Cosmos.mk 0.5 0.5 0).t_Lopt 1 = none ∧
        (Cosmos.mk 0.5 0.5 0).topt 1 = none ∧ (Cosmos.mk 0.5 0.5 0).dPopt 1 = none) :=
  ⟨rfl, hubble_zero_raises (Cosmos.mk 0.5 0.5 0) rfl 1⟩

/-- C6: for every cosmology with curvature term `Ωk = 1 - Ωm - ΩΛ < 0` and
every `z ≥ 0`, `V_C z` evaluates to
`(2π D_H^3 / Ωk) * (m √(1 + Ωk m²) - arcsin(m √|Ωk|) / √|Ωk|)` with
`m = D_M z / D_H`: the leading factor divides by the signed (negative) `Ωk`
while the arcsin argument and trailing divisor use `|Ωk|`. -/
theorem V_C_closed_branch (cm : Cosmos) (z : ℝ) (hk : 1 - cm.om - cm.ol < 0)
    (hz : 0 ≤ z) :
    cm.V_C z = some (2 * π * cm.D_H ^ 3 / (1 - cm.om - cm.ol) *
      (cm.D_M z / cm.D_H *
          Real.sqrt (1 + (1 - cm.om - cm.ol) * (cm.D_M z / cm.D_H) ^ 2) -
        Real.arcsin (cm.D_M z / cm.D_H * Real.sqrt |1 - cm.om - cm.ol|) /
          Real.sqrt |1 - cm.om - cm.ol|)) := by
  simp only [Cosmos.V_C]
  rw [if_neg hk.ne, if_neg (not_lt.mpr hk.le)]

/-- Witness for C6 at the closed cosmology `(0.5, 0.7, 0.7)` and `z = 1`. -/
theorem V_C_closed_branch_witness :
    1 - (Cosmos.mk 0.5 0.7 0.7).om - (Cosmos.mk 0.5 0.7 0.7).ol < 0 ∧ (0 : ℝ) ≤ 1 ∧
      (Cosmos.mk 0.5 0.7 0.7).V_C 1 =
        some (2 * π * (Cosmos.mk 0.5 0.7 0.7).D_H ^ 3 /
            (1 - (Cosmos.mk 0.5 0.7 0.7).om - (Cosmos.mk 0.5 0.7 0.7).ol) *
          ((Cosmos.mk 0.5 0.7 0.7).D_M 1 / (Cosmos.mk 0.5 0.7 0.7).D_H *
              Real.sqrt (1 + (1 - (Cosmos.mk 0.5 0.7 0.7).om - (Cosmos.mk 0.5 0.7 0.7).ol) *
                ((Cosmos.mk 0.5 0.7 0.7).D_M 1 / (Cosmos.mk 0.5 0.7 0.7).D_H) ^ 2) -
            Real.arcsin ((Cosmos.mk 0.5 0.7 0.7).D_M 1 / (Cosmos.mk 0.5 0.7 0.7).D_H *
                Real.sqrt |1 - (Cosmos.mk 0.5 0.7 0.7).om - (Cosmos.mk 0.5 0.7 0.7).ol|) /
              Real.sqrt |1 - (Cosmos.mk 0.5 0.7 0.7).om - (Cosmos.mk 0.5 0.7 0.7).ol|)) :=
  ⟨by norm_num, by norm_num,
    V_C_closed_branch (Cosmos.mk 0.5 0.7 0.7) 1 (by norm_num) (by norm_num)⟩

/-- C8: for every valid cosmology (`Ωm > 0`, `ΩΛ ≥ 0`, `Ωk ≥ 0`, `h100 > 0`)
and every `z1 ≥ 0`, `t z1 + t_L z1 = t 0` (age plus lookback time is the
present age: the common integrand is integrated over `[0, z1]` by `t_L` and
over `(z1, ∞)` by `t`), and `t` is strictly decreasing: `t z2 < t z1` for any
`z2 > z1`. -/
theorem age_plus_lookback (cm : Cosmos) (hom : 0 < cm.om) (hol : 0 ≤ cm.ol)
    (hok : 0 ≤ 1 - cm.om - cm.ol) (hh : 0 < cm.h) (z1 z2 : ℝ) (hz1 : 0 ≤ z1)
    (h12 : z1 < z2) :
    cm.t z1 + cm.t_L z1 = cm.t 0 ∧ cm.t z2 < cm.t z1 := by
  have htH : 0 < cm.t_H := t_H_pos cm hh
  constructor
  · unfold Cosmos.t Cosmos.t_L
    rw [age_split cm.om cm.ol hom hol hok 0 z1 le_rfl hz1]
    ring
  · unfold Cosmos.t
    rw [age_split cm.om cm.ol hom hol hok z1 z2 hz1 h12.le]
    have hpos := age_interval_pos cm.om cm.ol hom hol hok z1 z2 hz1 h12
    nlinarith [mul_pos htH hpos]

/-- Witness for C8 at the default cosmology, `z1 = 0`, `z2 = 1`. -/
theorem age_plus_lookback_witness :
    0 < defaultCosmos.om ∧ 0 ≤ defaultCosmos.ol ∧
      0 ≤ 1 - defaultCosmos.om - defaultCosmos.ol ∧ 0 < defaultCosmos.h ∧
      (0 : ℝ) ≤ 0 ∧ (0 : ℝ) < 1 ∧
      (defaultCosmos.t 0 + defaultCosmos.t_L 0 = defaultCosmos.t 0 ∧
        defaultCosmos.t 1 < defaultCosmos.t 0) :=
  ⟨by norm_num [defaultCosmos], by norm_num [defaultCosmos],
    by norm_num [defaultCosmos], by norm_num [defaultCosmos],
    le_rfl, by norm_num,
    age_plus_lookback defaultCosmos (by norm_num [defaultCosmos])
      (by norm_num [defaultCosmos]) (by norm_num [defaultCosmos])
      (by norm_num [defaultCosmos]) 0 1 le_rfl (by norm_num)⟩

end
